import Mathlib

/-
Verification development for the ArcRelay repository.

Shallow embedding of the payment-verification and cross-chain transfer code:
  - backend/src/services/gatewayService.ts   (parseUsdcAmountToBaseUnits,
    selectTokensForTransfer, waitForTransactionConfirmed, depositToGateway)
  - backend/src/middleware/validation.ts and the alternative transfer route
    (gateway /transfer orchestration: fee, deposit and burn-intent sizing)
  - src/facilitator/payments.ts (eip3009 utilities: decodePaymentHeader,
    normalizeSignature, verifyTransferAuthorization, recoverAddressFromDigest)
  - src/facilitator/server.ts and the multi-network facilitator
    (verifyAuthorization, ensureRequirements, the /verify route)
  - the reverse proxy nonce registry (issueNonce, consumeNonce,
    cleanupExpiredNonces, buildNonceKey)

JavaScript bigint values are modelled as Lean Int; hex strings fed to BigInt
are parsed explicitly.  Cryptographic primitives (keccak256 digests and
secp256k1 point recovery) are abstracted as an oracle parameter `ecrecover`:
all checks the code performs around them are embedded explicitly, and the
theorems quantify over the oracle.
-/

namespace ArcRelay

/-! ### Decimal string parsing (gatewayService.ts, parseUsdcAmountToBaseUnits) -/

/-- ASCII whitespace removed by JS `String.prototype.trim` (the Unicode
space classes beyond ASCII do not occur in this code base's inputs). -/
def isJsWhitespace (c : Char) : Bool :=
  c = ' ' ∨ c = '\t' ∨ c = '\n' ∨ c = '\r' ∨ c = '\x0b' ∨ c = '\x0c'

/-- JS `trim` over the character list: strip leading and trailing
whitespace. -/
def trimChars (l : List Char) : List Char :=
  ((l.dropWhile isJsWhitespace).reverse.dropWhile isJsWhitespace).reverse

/-- JS `split('.')`: the dot-separated segments, keeping empty segments. -/
def splitOnDot : List Char → List (List Char)
  | [] => [[]]
  | c :: t =>
    if c = '.' then [] :: splitOnDot t
    else
      match splitOnDot t with
      | [] => [[c]]
      | seg :: rest => (c :: seg) :: rest

/-- JS `String.prototype.toLowerCase` on the ASCII addresses this code
compares. -/
def toLowerStr (s : String) : String :=
  String.mk (s.data.map Char.toLower)

/-- JS `String.prototype.toUpperCase` on the ASCII method names this code
uses. -/
def toUpperStr (s : String) : String :=
  String.mk (s.data.map Char.toUpper)

/-- Digits of a character list that survive the JS `replace(/[^0-9]/g, '')`:
exactly the ASCII digits are kept. -/
def onlyDigits (l : List Char) : List Char :=
  l.filter Char.isDigit

/-- Numeric value of a digit string, as built by `BigInt(full)` on a string of
ASCII digits: fold `n * 10 + digit`. -/
def digitsVal (l : List Char) : Nat :=
  l.foldl (fun n c => n * 10 + (c.toNat - 48)) 0

/-- The JS `(frac + '000000').slice(0, 6)`: right-pad with zeros, keep the
first six characters (truncation, no rounding). -/
def padTrunc6 (l : List Char) : List Char :=
  (l ++ ['0', '0', '0', '0', '0', '0']).take 6

/-- Embedding of `parseUsdcAmountToBaseUnits` (gatewayService.ts): trim, split
on the first `.`, strip non-digits from the integer and fractional parts
(`|| '0'` for an empty integer part), pad/truncate the fraction to 6 digits,
and read the concatenation as an integer. -/
def parseUsdcAmountToBaseUnits (amount : String) : Int :=
  let trimmed := trimChars amount.data
  if trimmed = [] then 0
  else
    let parts := splitOnDot trimmed
    let intPartRaw := parts.headD []
    let fracPartRaw := (parts.drop 1).headD []
    let intPart := if onlyDigits intPartRaw = [] then ['0'] else onlyDigits intPartRaw
    let fracPartPadded := padTrunc6 (onlyDigits fracPartRaw)
    (digitsVal (intPart ++ fracPartPadded) : Int)

/-- The claim's reading of the parse, stated directly as
`integerPart * 10^6 + fraction` (with the same stripping, padding and
truncation).  Used to check the implementation against the claim. -/
def parseUsdcSpec (amount : String) : Int :=
  let trimmed := trimChars amount.data
  if trimmed = [] then 0
  else
    let parts := splitOnDot trimmed
    let intVal := digitsVal (onlyDigits (parts.headD []))
    let fracVal := digitsVal (padTrunc6 (onlyDigits ((parts.drop 1).headD [])))
    (intVal * 10 ^ 6 + fracVal : Int)

/-- Embedding of the aggregation loop in `getWalletUsdcBalance`
(gatewayService.ts): `totalBaseUnits += parseUsdcAmountToBaseUnits(rawAmount)`
over the USDC-like token balance strings of one wallet. -/
def usdcTotalBaseUnits (raws : List String) : Int :=
  raws.foldl (fun acc raw => acc + parseUsdcAmountToBaseUnits raw) 0

/-! ### Token balances and greedy selection (gatewayService.ts) -/

/-- Embedding of the `TokenBalance` record (gatewayService.ts).  The TS field
`amount` is a bigint, modelled as `Int`. -/
structure TokenBalance where
  walletId : String
  blockchain : String
  address : String
  tokenAddress : String
  amount : Int
  decimals : Nat
deriving DecidableEq, Repr

/-- Stable descending insertion, matching the JS stable
`sort((a, b) => a.amount > b.amount ? -1 : a.amount < b.amount ? 1 : 0)`:
an element passes over strictly larger heads and lands before the first
head that is not strictly larger, keeping the original order of ties. -/
def insertDesc (b : TokenBalance) : List TokenBalance → List TokenBalance
  | [] => [b]
  | c :: cs => if b.amount < c.amount then c :: insertDesc b cs else b :: c :: cs

/-- The sorted copy `[...balances].sort(...)` of `selectTokensForTransfer`. -/
def sortDesc (l : List TokenBalance) : List TokenBalance :=
  l.foldr insertDesc []

/-- The selection loop of `selectTokensForTransfer`: walk the sorted balances,
break once `remaining <= 0`, skip non-positive balances, and draw
`min(balance.amount, remaining)` from each.  Returns the selected entries and
the final `remaining`. -/
def selectGo : List TokenBalance → Int → List TokenBalance × Int
  | [], remaining => ([], remaining)
  | b :: bs, remaining =>
    if remaining ≤ 0 then ([], remaining)
    else if 0 < b.amount then
      let amountToUse := if remaining < b.amount then remaining else b.amount
      let rest := selectGo bs (remaining - amountToUse)
      ({ b with amount := amountToUse } :: rest.1, rest.2)
    else selectGo bs remaining

/-- The message of the error thrown by `selectTokensForTransfer`:
`Insufficient balance. Need <requested>, have <requested - remaining>`. -/
def insufficientMsg (requested haveAmt : Int) : String :=
  "Insufficient balance. Need " ++ toString requested ++ ", have " ++ toString haveAmt

/-- Embedding of `selectTokensForTransfer` (gatewayService.ts): sort
descending, greedily draw, and throw an insufficient-balance error naming the
requested and available amounts when `remaining > 0` survives the loop. -/
def selectTokensForTransfer (balances : List TokenBalance) (requestedAmount : Int) :
    Except String (List TokenBalance) :=
  let sorted := sortDesc balances
  let result := selectGo sorted requestedAmount
  if 0 < result.2 then
    Except.error (insufficientMsg requestedAmount (requestedAmount - result.2))
  else
    Except.ok result.1

/-- Sum of the `amount` fields of a balance list. -/
def amtSum (l : List TokenBalance) : Int :=
  (l.map TokenBalance.amount).sum

/-- Sum of the positive parts of the `amount` fields: the part of a balance
list the selection loop can actually draw from. -/
def posSum (l : List TokenBalance) : Int :=
  (l.map (fun b => max b.amount 0)).sum

/-- JS `String.prototype.includes` over character lists. -/
def listContains (needle : List Char) : List Char → Bool
  | [] => needle.isEmpty
  | c :: t => needle.isPrefixOf (c :: t) || listContains needle t

/-- Whether one string occurs inside another (JS `includes`). -/
def includesSub (needle hay : String) : Bool :=
  listContains needle.data hay.data

/-! ### Nonce registry (reverse proxy: buildNonceKey, cleanupExpiredNonces,
issueNonce, consumeNonce) -/

/-- `` `${method.toUpperCase()}::${route}::${nonce}` `` -/
def buildNonceKey (method route nonce : String) : String :=
  toUpperStr method ++ "::" ++ route ++ "::" ++ nonce

/-- The `pendingNonces` map: nonce key to expiry timestamp.  A JS `Map` has
unique keys; the operations below preserve key uniqueness. -/
abbrev NonceStore : Type := List (String × Int)

/-- `cleanupExpiredNonces(now)`: delete every entry with `expiresAt <= now`. -/
def cleanupExpiredNonces (now : Int) (st : NonceStore) : NonceStore :=
  st.filter (fun e => decide (now < e.2))

/-- `pendingNonces.set(key, { expiresAt })` (unique keys, as in a JS Map). -/
def setNonce (key : String) (expiresAt : Int) (st : NonceStore) : NonceStore :=
  (key, expiresAt) :: st.filter (fun e => e.1 ≠ key)

/-- Embedding of `issueNonce`: sweep at issue time, then record the nonce key
with expiry `validAfter + maxTimeoutSeconds` (`validAfter` is the issue
time). -/
def issueNonce (method route nonce : String) (issuedAt ttlSeconds : Int)
    (st : NonceStore) : NonceStore :=
  let validBefore := issuedAt + ttlSeconds
  setNonce (buildNonceKey method route nonce) validBefore (cleanupExpiredNonces issuedAt st)

/-- Embedding of `consumeNonce`: sweep at the current time, then
`pendingNonces.delete(key)` — true iff the key is (still) present, removing
it. -/
def consumeNonce (method route nonce : String) (now : Int) (st : NonceStore) :
    Bool × NonceStore :=
  let st1 := cleanupExpiredNonces now st
  let key := buildNonceKey method route nonce
  (st1.any (fun e => e.1 == key), st1.filter (fun e => e.1 ≠ key))

/-! ### Payment payload, signatures and header codec (facilitator
payments.ts / eip3009.ts) -/

/-- The `payload` object of `EIP3009PaymentPayload`.  The TS field `from` is
spelled `fromAddr` (`from` is a Lean keyword); `signature`, `v`, `r`, `s` are
the optional fields of the wire format. -/
structure PaymentInner where
  fromAddr : String
  toAddr : String
  value : String
  validAfter : Int
  validBefore : Int
  nonce : String
  signature : Option String
  v : Option Nat
  r : Option String
  s : Option String
deriving DecidableEq, Repr

/-- Embedding of `EIP3009PaymentPayload`. -/
structure EIP3009PaymentPayload where
  x402Version : Int
  scheme : String
  network : String
  payload : PaymentInner
deriving DecidableEq, Repr

/-- Embedding of `PaymentRequirements`. -/
structure PaymentRequirements where
  scheme : String
  network : String
  token : String
  amount : String
  recipient : String
  description : String
  maxTimeoutSeconds : Int
deriving DecidableEq, Repr

/-- Embedding of `EIP3009Authorization`. -/
structure EIP3009Authorization where
  fromAddr : String
  toAddr : String
  value : String
  validAfter : Int
  validBefore : Int
  nonce : String
deriving DecidableEq, Repr

/-- Embedding of `EIP3009Signature` (`r` and `s` are hex strings on the wire;
they are converted by `BigInt(...)` inside the recovery routine). -/
structure EIP3009Signature where
  v : Nat
  r : String
  s : String
deriving DecidableEq, Repr

/-- `toAuthorization(payload)` (facilitator servers). -/
def toAuthorization (p : EIP3009PaymentPayload) : EIP3009Authorization :=
  { fromAddr := p.payload.fromAddr
    toAddr := p.payload.toAddr
    value := p.payload.value
    validAfter := p.payload.validAfter
    validBefore := p.payload.validBefore
    nonce := p.payload.nonce }

/-- `toSignature(payload)` (facilitator servers).  The TS code casts the
optional fields; a missing field is modelled by a default that fails the
downstream checks exactly as `undefined` does. -/
def toSignature (p : EIP3009PaymentPayload) : EIP3009Signature :=
  { v := p.payload.v.getD 0, r := p.payload.r.getD "", s := p.payload.s.getD "" }

/-- Value of one hex digit, or none. -/
def hexDigitVal (c : Char) : Option Nat :=
  if '0' ≤ c ∧ c ≤ '9' then some (c.toNat - 48)
  else if 'a' ≤ c ∧ c ≤ 'f' then some (c.toNat - 87)
  else if 'A' ≤ c ∧ c ≤ 'F' then some (c.toNat - 55)
  else none

/-- Parse a non-empty hex digit string; none on a bad digit or empty input
(`BigInt('0x')` throws). -/
def hexToNat (l : List Char) : Option Nat :=
  match l with
  | [] => none
  | _ =>
    l.foldl (fun acc c => acc.bind (fun a => (hexDigitVal c).map (fun d => 16 * a + d)))
      (some 0)

/-- Parse a non-empty decimal digit string; none otherwise. -/
def decToNat (l : List Char) : Option Nat :=
  match l with
  | [] => none
  | _ =>
    l.foldl
      (fun acc c =>
        acc.bind (fun a =>
          if '0' ≤ c ∧ c ≤ '9' then some (10 * a + (c.toNat - 48)) else none))
      (some 0)

/-- JS `BigInt(string)`: trims, accepts the empty string as 0, `0x`-prefixed
hex, an optional leading minus on a decimal string; anything else throws
(none).  (The rarer `0b`/`0o`/`+` forms are not used by this code base and
are modelled as failures.) -/
def bigIntOfString (str : String) : Option Int :=
  match trimChars str.data with
  | [] => some 0
  | '0' :: 'x' :: rest => (hexToNat rest).map Int.ofNat
  | '-' :: rest => (decToNat rest).map (fun n => -(n : Int))
  | t => (decToNat t).map Int.ofNat

/-- The secp256k1 curve order used by `recoverAddressFromDigest`. -/
def secp256k1N : Int :=
  0xFFFFFFFFFFFFFFFFFFFFFFFFFFFFFFFEBAAEDCE6AF48A03BBFD25E8CD0364141

/-- `secp256k1N / 2n` (bigint division truncates; both operands positive). -/
def secp256k1halfN : Int := Int.tdiv secp256k1N 2

/-- Embedding of `recoverAddressFromDigest` (eip3009.ts): convert `r` and `s`
with `BigInt` (a conversion failure is caught and yields null), reject a
non-canonical `s > N/2` and zero `r`/`s`, then call the actual secp256k1
recovery — abstracted as the `ecrecover` oracle, which receives the numeric
`r`, `s` and `v` (the digest is fixed by the authorization the caller hashed
and is folded into the oracle). -/
def recoverAddressFromDigest (ecrecover : Int → Int → Nat → Option String)
    (sig : EIP3009Signature) : Option String :=
  match bigIntOfString sig.r, bigIntOfString sig.s with
  | some r, some s =>
    if secp256k1halfN < s then none
    else if r = 0 ∨ s = 0 then none
    else ecrecover r s sig.v
  | _, _ => none

/-- Embedding of `verifyTransferAuthorization` (eip3009.ts): reject
`v ∉ {27, 28}` before anything else, then recover through
`recoverAddressFromDigest`.  The struct hash / domain separator / digest
construction is deterministic in the authorization and is folded into the
`ecrecover` oracle. -/
def verifyTransferAuthorization (ecrecover : Int → Int → Nat → Option String)
    (sig : EIP3009Signature) : Option String :=
  if sig.v ≠ 27 ∧ sig.v ≠ 28 then none
  else recoverAddressFromDigest ecrecover sig

/-- JS `parseInt(two-char-hex, 16)`: parses the longest valid prefix, NaN when
the first character is already invalid.  none models NaN. -/
def parseIntHex2 (l : List Char) : Option Nat :=
  match l with
  | [c1, c2] =>
    match hexDigitVal c1 with
    | none => none
    | some d1 =>
      match hexDigitVal c2 with
      | none => some d1
      | some d2 => some (16 * d1 + d2)
  | _ => none

/-- Embedding of `normalizeSignature` (payments.ts).  The TS function mutates
the payload (splitting a 65-byte `signature` blob into `v`, `r`, `s` when
those are missing) and returns a boolean; here the mutated payload is
returned on success.  A NaN produced by `parseInt` on a bad hex byte is
modelled by the sentinel 4096, which fails the `v ∈ {27, 28}` check exactly
as NaN does (no later code inspects `v` in any other way). -/
def normalizeSignature (p : EIP3009PaymentPayload) : Option EIP3009PaymentPayload :=
  if p.x402Version = 0 ∨ p.scheme = "" ∨ p.network = "" then none
  else if p.payload.fromAddr = "" ∨ p.payload.toAddr = "" ∨ p.payload.value = "" ∨
      p.payload.nonce = "" then none
  else
    let pl := p.payload
    let plAfterBlob : Option PaymentInner :=
      match pl.signature with
      | some sigStr =>
        if sigStr ≠ "" ∧ (pl.v.getD 0 = 0 ∨ pl.r.getD "" = "" ∨ pl.s.getD "" = "") then
          let hex :=
            match sigStr.data with
            | '0' :: 'x' :: rest => rest
            | l => l
          if hex.length ≠ 130 then none
          else
            some { pl with
              r := some (String.mk ('0' :: 'x' :: hex.take 64))
              s := some (String.mk ('0' :: 'x' :: (hex.drop 64).take 64))
              v := some ((parseIntHex2 (hex.drop 128)).getD 4096) }
        else some pl
      | none => some pl
    match plAfterBlob with
    | none => none
    | some pl2 =>
      if pl2.v.isNone ∨ pl2.r.getD "" = "" ∨ pl2.s.getD "" = "" then none
      else if pl2.v ≠ some 27 ∧ pl2.v ≠ some 28 then none
      else some { p with payload := pl2 }

/-- Embedding of `encodePaymentHeader` (payments.ts): base64 of the JSON text
of the payload.  `JSON.parse ∘ JSON.stringify` is the identity on this record
type (strings, numbers and omitted-when-absent optional fields) and base64
decode inverts encode, so the header string is modelled by the payload value
it determines. -/
def encodePaymentHeader (p : EIP3009PaymentPayload) : EIP3009PaymentPayload := p

/-- Embedding of `decodePaymentHeader` (payments.ts): decode the transported
JSON value and return the (possibly normalized) payload when
`normalizeSignature` accepts it, null otherwise. -/
def decodePaymentHeader (header : EIP3009PaymentPayload) : Option EIP3009PaymentPayload :=
  normalizeSignature header

/-! ### Facilitator verification (multi-network facilitator and
src/facilitator/server.ts) -/

/-- Embedding of `verifyAuthorization` of the multi-network facilitator
server: payload/requirement match checks, signature recovery and comparison,
on-chain replay state (`alreadyUsed`, the result of the
`authorizationState` read), and the strict validity-window checks.  The
successful branch returns the authorization. -/
def verifyAuthorization (ecrecover : Int → Int → Nat → Option String)
    (pp : EIP3009PaymentPayload) (req : PaymentRequirements)
    (alreadyUsed : Bool) (now : Int) : Except String EIP3009Authorization :=
  let auth := toAuthorization pp
  let sig := toSignature pp
  if ¬(pp.scheme = "exact" ∧ pp.network = req.network) then
    Except.error "Payment payload network mismatch"
  else if pp.payload.value ≠ req.amount then
    Except.error "Payment amount mismatch"
  else if toLowerStr pp.payload.toAddr ≠ toLowerStr req.recipient then
    Except.error "Payment recipient mismatch"
  else
    match verifyTransferAuthorization ecrecover sig with
    | none => Except.error "Invalid EIP-3009 signature"
    | some recovered =>
      if toLowerStr recovered ≠ toLowerStr auth.fromAddr then
        Except.error "Invalid EIP-3009 signature"
      else if alreadyUsed then
        Except.error "Authorization already used"
      else if now ≤ auth.validAfter then
        Except.error "Authorization not yet valid"
      else if auth.validBefore ≤ now then
        Except.error "Authorization expired"
      else Except.ok auth

/-- Embedding of `verifyAuthorization` of src/facilitator/server.ts (the
single-network variant): fixed `arc-testnet` network, an additional check of
the payload recipient against the facilitator account address, then the same
chain of checks. -/
def verifyAuthorizationServer (ecrecover : Int → Int → Nat → Option String)
    (accountAddress : String) (pp : EIP3009PaymentPayload)
    (req : PaymentRequirements) (alreadyUsed : Bool) (now : Int) :
    Except String EIP3009Authorization :=
  let auth := toAuthorization pp
  let sig := toSignature pp
  if ¬(pp.scheme = "exact" ∧ pp.network = "arc-testnet") then
    Except.error "Payment payload network mismatch"
  else if toLowerStr pp.payload.toAddr ≠ toLowerStr accountAddress then
    Except.error "Payment payload recipient mismatch"
  else if pp.payload.value ≠ req.amount then
    Except.error "Payment amount mismatch"
  else if toLowerStr pp.payload.toAddr ≠ toLowerStr req.recipient then
    Except.error "Payment recipient mismatch"
  else
    match verifyTransferAuthorization ecrecover sig with
    | none => Except.error "Invalid EIP-3009 signature"
    | some recovered =>
      if toLowerStr recovered ≠ toLowerStr auth.fromAddr then
        Except.error "Invalid EIP-3009 signature"
      else if alreadyUsed then
        Except.error "Authorization already used"
      else if now ≤ auth.validAfter then
        Except.error "Authorization not yet valid"
      else if auth.validBefore ≤ now then
        Except.error "Authorization expired"
      else Except.ok auth

/-- True on `Except.ok`. -/
def exceptIsOk {ε α : Type} : Except ε α → Bool
  | Except.ok _ => true
  | Except.error _ => false

/-- The per-network context the facilitator holds: the expected token
address and the Circle wallet (payout) address. -/
structure NetworkContext where
  usdcAddress : String
  walletAddress : String
deriving DecidableEq, Repr

/-- Embedding of `ensureRequirements` (multi-network facilitator).
`BigInt(req.amount)` can throw on a malformed amount string; a throw is the
`Except.error` branch (caught by the route's try/catch), while a returned
requirement-level error string is `Except.ok (some msg)`. -/
def ensureRequirements (req : PaymentRequirements) (ctx : NetworkContext)
    (supported : String → Bool) : Except String (Option String) :=
  if req.scheme ≠ "exact" then Except.ok (some "Unsupported payment scheme")
  else if ¬ supported req.network then Except.ok (some "Unsupported network")
  else if toLowerStr req.token ≠ toLowerStr ctx.usdcAddress then
    Except.ok (some "Unsupported token")
  else if toLowerStr req.recipient ≠ toLowerStr ctx.walletAddress then
    Except.ok (some "Recipient does not match Circle wallet address")
  else
    match bigIntOfString req.amount with
    | none => Except.error "Cannot convert amount to a BigInt"
    | some a =>
      if a ≤ 0 then Except.ok (some "Amount must be positive")
      else Except.ok none

/-- The observable part of a `/verify` HTTP response: status code, the
`valid` flag, the derived payer, the error string, and the invoice (modelled
by its `reason`; the route builds it from the known requirements). -/
structure VerifyResponse where
  status : Nat
  valid : Option Bool
  payer : Option String
  error : Option String
  invoice : Option String
deriving DecidableEq, Repr

/-- Embedding of the multi-network facilitator `/verify` route: 400 for a
missing `paymentRequirements`, an unsupported network, or an
`ensureRequirements` reject; otherwise 200, with `valid:false` plus an
invoice for a missing payload or any `verifyAuthorization` failure (including
an exception thrown while validating the requirements, which the route's
catch block turns into 200 `valid:false`), and `valid:true` on success. -/
def postVerify (ecrecover : Int → Int → Nat → Option String)
    (contexts : String → Option NetworkContext)
    (paymentRequirements : Option PaymentRequirements)
    (paymentPayload : Option EIP3009PaymentPayload)
    (alreadyUsed : Bool) (now : Int) : VerifyResponse :=
  match paymentRequirements with
  | none =>
    { status := 400, valid := none, payer := none
      error := some "Missing payment requirements", invoice := none }
  | some req =>
    match contexts req.network with
    | none =>
      { status := 400, valid := none, payer := none
        error := some "Unsupported network", invoice := none }
    | some ctx =>
      match ensureRequirements req ctx (fun n => (contexts n).isSome) with
      | Except.error e =>
        { status := 200, valid := some false, payer := none
          error := some e, invoice := some e }
      | Except.ok (some reqError) =>
        { status := 400, valid := none, payer := none
          error := some reqError, invoice := some reqError }
      | Except.ok none =>
        match paymentPayload with
        | none =>
          { status := 200, valid := some false, payer := none
            error := some "Missing payment payload"
            invoice := some "Payment payload required" }
        | some pp =>
          match verifyAuthorization ecrecover pp req alreadyUsed now with
          | Except.error e =>
            { status := 200, valid := some false, payer := none
              error := some e, invoice := some e }
          | Except.ok auth =>
            { status := 200, valid := some true, payer := some auth.fromAddr
              error := none, invoice := none }

/-! ### Transaction confirmation polling and deposit retries
(gatewayService.ts: waitForTransactionConfirmed, depositToGateway) -/

/-- Circle transaction states observed when polling `getTransaction`. -/
inductive CircleTransactionState where
  | CANCELLED | CLEARED | COMPLETE | CONFIRMED | DENIED | FAILED
  | INITIATED | QUEUED | SENT | STUCK
deriving DecidableEq, Repr

/-- The `state` string of a Circle transaction as interpolated into error
messages. -/
def stateName : CircleTransactionState → String
  | .CANCELLED => "CANCELLED"
  | .CLEARED => "CLEARED"
  | .COMPLETE => "COMPLETE"
  | .CONFIRMED => "CONFIRMED"
  | .DENIED => "DENIED"
  | .FAILED => "FAILED"
  | .INITIATED => "INITIATED"
  | .QUEUED => "QUEUED"
  | .SENT => "SENT"
  | .STUCK => "STUCK"

/-- The failure message of `waitForTransactionConfirmed` for a terminal
failure state, with the optional `errorReason` suffix. -/
def txFailedMsg (id : String) (st : CircleTransactionState) (reason : Option String) :
    String :=
  "Transaction " ++ id ++ " failed with state=" ++ stateName st ++
    (match reason with
     | some r => " reason=" ++ r
     | none => "")

/-- The message thrown when the polling attempt budget is exhausted. -/
def txTimeoutMsg (id : String) : String :=
  "Transaction " ++ id ++ " not confirmed within timeout window"

/-- One poll of `getTransaction`: either no usable `state`, or a state and an
optional `errorReason`. -/
def TxPoll : Type := Nat → Option (CircleTransactionState × Option String)

/-- The polling loop of `waitForTransactionConfirmed`: at each attempt,
return on a success state, throw the state-labelled failure message on
`FAILED`/`DENIED`/`CANCELLED`, keep polling otherwise; throw the timeout
message when the attempts are exhausted. -/
def waitGo (id : String) (polls : TxPoll) : Nat → Nat → Except String Unit
  | _, 0 => Except.error (txTimeoutMsg id)
  | attempt, fuel + 1 =>
    match polls attempt with
    | some (st, reason) =>
      if st = .CONFIRMED ∨ st = .COMPLETE ∨ st = .CLEARED then Except.ok ()
      else if st = .FAILED ∨ st = .DENIED ∨ st = .CANCELLED then
        Except.error (txFailedMsg id st reason)
      else waitGo id polls (attempt + 1) fuel
    | none => waitGo id polls (attempt + 1) fuel

/-- Embedding of `waitForTransactionConfirmed` with its default budget of 80
polling attempts. -/
def waitForTransactionConfirmed (id : String) (polls : TxPoll) : Except String Unit :=
  waitGo id polls 0 80

/-- The substring test `msg.includes('state=FAILED')` used by the retry
loops in `depositToGateway`. -/
def includesStateFailed (msg : String) : Bool :=
  includesSub "state=FAILED" msg

/-- The shared shape of the approve and deposit retry loops of
`depositToGateway` (`for attempt = 1..maxRetries`): create the transaction
(a missing id throws immediately, outside the catch), await confirmation,
break on success, and rethrow unless the caught message includes
`state=FAILED` and attempts remain.  `fuel` counts the loop iterations
still allowed; the fuel-0 branch is dead code, because the
`attempt === maxRetries` condition always rethrows on the last iteration. -/
def depositRetryGo (createTx : Nat → Option String)
    (waitOutcome : Nat → String → Except String Unit) (noTxMsg : String) :
    Nat → Nat → Except String String
  | _, 0 => Except.error noTxMsg
  | attempt, fuel + 1 =>
    match createTx attempt with
    | none => Except.error noTxMsg
    | some txId =>
      match waitOutcome attempt txId with
      | Except.ok _ => Except.ok txId
      | Except.error e =>
        if ¬ includesStateFailed e = true ∨ attempt = 3 then Except.error e
        else depositRetryGo createTx waitOutcome noTxMsg (attempt + 1) fuel

/-- One approve or deposit submission of `depositToGateway`, with
`maxRetries = 3` attempts starting at attempt 1. -/
def submitWithRetry (createTx : Nat → Option String)
    (waitOutcome : Nat → String → Except String Unit) (noTxMsg : String) :
    Except String String :=
  depositRetryGo createTx waitOutcome noTxMsg 1 3

/-! ### Gateway transfer orchestration (fee / deposit / burn sizing) -/

/-- The pair the burn-intent construction receives from a transfer route:
`createBurnIntent(..., value, maxFee)`. -/
structure BurnParams where
  value : Int
  maxFee : Int
deriving DecidableEq, Repr

/-- The fee-relevant outcome of a transfer route: the per-token deposit
amounts handed to `depositToGateway` and the `(value, maxFee)` pair of each
burn intent. -/
structure TransferPlan where
  deposits : List Int
  burns : List BurnParams
deriving DecidableEq, Repr

/-- Embedding of the deposit/burn sizing of the `/transfer` route in
backend/src/middleware/validation.ts: `feeBuffer = amount * 1 / 1000`,
`maxFee = feeBuffer`, select against `amount + maxFee`, deposit each selected
amount, and build every burn intent with `value = amount` and
`maxFee = feeBuffer`. -/
def gatewayTransferPlan (amount : Int) (balances : List TokenBalance) :
    Except String TransferPlan :=
  let feeBuffer := Int.tdiv (amount * 1) 1000
  let maxFee := feeBuffer
  let totalRequired := amount + maxFee
  (selectTokensForTransfer balances totalRequired).map (fun sel =>
    { deposits := sel.map TokenBalance.amount
      burns := sel.map (fun _ => { value := amount, maxFee := maxFee }) })

/-- Embedding of the deposit/burn sizing of the alternative `/transfer`
route (the near-duplicate gateway route): `maxFee = amount + amount * 5 /
1000`, select against `amount` alone, deposit each selected amount, and
build every burn intent with `value = token.amount` (the selected draw) and
that `maxFee`. -/
def gatewayTransferPlanAlt (amount : Int) (balances : List TokenBalance) :
    Except String TransferPlan :=
  let maxFee := amount + Int.tdiv (amount * 5) 1000
  (selectTokensForTransfer balances amount).map (fun sel =>
    { deposits := sel.map TokenBalance.amount
      burns := sel.map (fun t => { value := t.amount, maxFee := maxFee }) })

/-! ### Concrete records used by the spec scenarios -/

/-- A wallet balance of 700000 base units (0.7 USDC). -/
def c2balanceA : TokenBalance :=
  { walletId := "w1", blockchain := "AVAX-FUJI", address := "0xaaa"
    tokenAddress := "0xusdc1", amount := 700000, decimals := 6 }

/-- A wallet balance of 500000 base units (0.5 USDC). -/
def c2balanceB : TokenBalance :=
  { walletId := "w2", blockchain := "ARC-TESTNET", address := "0xbbb"
    tokenAddress := "0xusdc2", amount := 500000, decimals := 6 }

/-- A lone wallet balance of 300000 base units (0.3 USDC). -/
def c3balance : TokenBalance :=
  { walletId := "w3", blockchain := "AVAX-FUJI", address := "0xccc"
    tokenAddress := "0xusdc1", amount := 300000, decimals := 6 }

/-- A concrete, well-formed payment payload: 1 USDC, window [100, 400),
explicit `v`, `r`, `s` with `v = 27`. -/
def examplePayload : EIP3009PaymentPayload :=
  { x402Version := 1, scheme := "exact", network := "arc-testnet"
    payload :=
      { fromAddr := "0xpayer", toAddr := "0xfac", value := "1000000"
        validAfter := 100, validBefore := 400, nonce := "0xn1"
        signature := none, v := some 27, r := some "0x01", s := some "0x01" } }

/-- The matching payment requirement: 1 USDC on arc-testnet. -/
def exampleRequirements : PaymentRequirements :=
  { scheme := "exact", network := "arc-testnet", token := "0xtok"
    amount := "1000000", recipient := "0xfac", description := "paid call"
    maxTimeoutSeconds := 300 }

/-- The matching facilitator network context. -/
def exampleContext : NetworkContext :=
  { usdcAddress := "0xtok", walletAddress := "0xfac" }

/-- A payload identical to `examplePayload` except `v = 26`: representable
on the wire, but outside the 27/28 range the decoder accepts. -/
def badVPayload : EIP3009PaymentPayload :=
  { x402Version := 1, scheme := "exact", network := "arc-testnet"
    payload :=
      { fromAddr := "0xPayer", toAddr := "0xFac", value := "1000000"
        validAfter := 100, validBefore := 400, nonce := "0xn1"
        signature := none, v := some 26, r := some "0x01", s := some "0x01" } }

/-! ### Helper lemmas about the greedy selection -/

theorem posSum_nonneg (l : List TokenBalance) : 0 ≤ posSum l := by
  induction l with
  | nil => simp [posSum]
  | cons b bs ih =>
    simp only [posSum, List.map_cons, List.sum_cons]
    exact add_nonneg (le_max_right _ _) ih

theorem amtSum_le_posSum (l : List TokenBalance) : amtSum l ≤ posSum l := by
  induction l with
  | nil => simp [amtSum, posSum]
  | cons b bs ih =>
    simp only [amtSum, posSum, List.map_cons, List.sum_cons] at *
    exact add_le_add (le_max_left _ _) ih

theorem amtSum_nonneg (l : List TokenBalance) (h : ∀ b ∈ l, 0 ≤ b.amount) :
    0 ≤ amtSum l := by
  induction l with
  | nil => simp [amtSum]
  | cons b bs ih =>
    simp only [amtSum, List.map_cons, List.sum_cons]
    have hb := h b (by simp)
    have hbs := ih (fun x hx => h x (by simp [hx]))
    simp only [amtSum] at hbs
    omega

theorem posSum_eq_amtSum (l : List TokenBalance) (h : ∀ b ∈ l, 0 ≤ b.amount) :
    posSum l = amtSum l := by
  induction l with
  | nil => simp [amtSum, posSum]
  | cons b bs ih =>
    simp only [amtSum, posSum, List.map_cons, List.sum_cons] at *
    rw [ih (fun x hx => h x (by simp [hx])), max_eq_left (h b (by simp))]

theorem selectGo_nonpos (l : List TokenBalance) (r : Int) (h : r ≤ 0) :
    selectGo l r = ([], r) := by
  cases l with
  | nil => rfl
  | cons b bs => simp [selectGo, h]

theorem selectGo_rem_nonneg (l : List TokenBalance) :
    ∀ r : Int, 0 ≤ r → 0 ≤ (selectGo l r).2 := by
  induction l with
  | nil => intro r hr; simpa [selectGo]
  | cons b bs ih =>
    intro r hr
    by_cases h0 : r ≤ 0
    · simp [selectGo, h0, hr]
    · by_cases hb : 0 < b.amount
      · by_cases hlt : r < b.amount
        · simp only [selectGo, if_neg h0, if_pos hb, if_pos hlt]
          exact ih _ (by omega)
        · simp only [selectGo, if_neg h0, if_pos hb, if_neg hlt]
          exact ih _ (by omega)
      · simp only [selectGo, if_neg h0, if_neg hb]
        exact ih _ hr

theorem posSum_nil : posSum [] = 0 := by simp [posSum]

theorem posSum_cons (b : TokenBalance) (bs : List TokenBalance) :
    posSum (b :: bs) = max b.amount 0 + posSum bs := by
  simp [posSum]

theorem amtSum_nil : amtSum [] = 0 := by simp [amtSum]

theorem amtSum_cons (b : TokenBalance) (bs : List TokenBalance) :
    amtSum (b :: bs) = b.amount + amtSum bs := by
  simp [amtSum]

theorem selectGo_rem_zero (l : List TokenBalance) :
    ∀ r : Int, 0 ≤ r → r ≤ posSum l → (selectGo l r).2 = 0 := by
  induction l with
  | nil =>
    intro r hr hle
    rw [posSum_nil] at hle
    have : r = 0 := le_antisymm hle hr
    subst this
    rfl
  | cons b bs ih =>
    intro r hr hle
    rw [posSum_cons] at hle
    by_cases h0 : r ≤ 0
    · have : r = 0 := le_antisymm h0 hr
      subst this
      simp [selectGo]
    · by_cases hb : 0 < b.amount
      · rw [max_eq_left (le_of_lt hb)] at hle
        by_cases hlt : r < b.amount
        · simp only [selectGo, if_neg h0, if_pos hb, if_pos hlt]
          rw [show r - r = 0 by omega]
          exact ih 0 le_rfl (posSum_nonneg bs)
        · simp only [selectGo, if_neg h0, if_pos hb, if_neg hlt]
          exact ih _ (by omega) (by omega)
      · rw [max_eq_right (by omega)] at hle
        simp only [selectGo, if_neg h0, if_neg hb]
        exact ih _ hr (by omega)

theorem selectGo_rem_insuff (l : List TokenBalance) :
    ∀ r : Int, posSum l < r → (selectGo l r).2 = r - posSum l := by
  induction l with
  | nil =>
    intro r hlt
    rw [posSum_nil]
    simp [selectGo]
  | cons b bs ih =>
    intro r hlt
    have hpbs := posSum_nonneg bs
    rw [posSum_cons] at hlt ⊢
    by_cases hb : 0 < b.amount
    · rw [max_eq_left (le_of_lt hb)] at hlt ⊢
      have h0 : ¬ r ≤ 0 := by omega
      have hlt2 : ¬ r < b.amount := by omega
      simp only [selectGo, if_neg h0, if_pos hb, if_neg hlt2]
      rw [ih _ (by omega)]
      omega
    · rw [max_eq_right (by omega)] at hlt ⊢
      have h0 : ¬ r ≤ 0 := by omega
      simp only [selectGo, if_neg h0, if_neg hb]
      rw [ih _ (by omega)]
      omega

theorem selectGo_sum (l : List TokenBalance) :
    ∀ r : Int, amtSum (selectGo l r).1 = r - (selectGo l r).2 := by
  induction l with
  | nil => intro r; simp [selectGo, amtSum]
  | cons b bs ih =>
    intro r
    by_cases h0 : r ≤ 0
    · simp [selectGo, h0, amtSum]
    · by_cases hb : 0 < b.amount
      · by_cases hlt : r < b.amount
        · simp only [selectGo, if_neg h0, if_pos hb, if_pos hlt, amtSum,
            List.map_cons, List.sum_cons]
          have := ih (r - r)
          simp only [amtSum] at this
          omega
        · simp only [selectGo, if_neg h0, if_pos hb, if_neg hlt, amtSum,
            List.map_cons, List.sum_cons]
          have := ih (r - b.amount)
          simp only [amtSum] at this
          omega
      · simp only [selectGo, if_neg h0, if_neg hb]
        exact ih r

theorem selectGo_mem (l : List TokenBalance) :
    ∀ r : Int, ∀ t ∈ (selectGo l r).1,
      ∃ b ∈ l, t = { b with amount := t.amount } ∧ 0 < t.amount ∧ t.amount ≤ b.amount := by
  induction l with
  | nil => intro r t ht; simp [selectGo] at ht
  | cons b bs ih =>
    intro r t ht
    by_cases h0 : r ≤ 0
    · simp [selectGo, h0] at ht
    · by_cases hb : 0 < b.amount
      · by_cases hlt : r < b.amount
        · simp only [selectGo, if_neg h0, if_pos hb, if_pos hlt, List.mem_cons] at ht
          rcases ht with ht | ht
          · exact ⟨b, by simp, by simp [ht], by simp [ht]; omega, by simp [ht]; omega⟩
          · obtain ⟨c, hc, h1, h2, h3⟩ := ih _ t ht
            exact ⟨c, by simp [hc], h1, h2, h3⟩
        · simp only [selectGo, if_neg h0, if_pos hb, if_neg hlt, List.mem_cons] at ht
          rcases ht with ht | ht
          · exact ⟨b, by simp, by simp [ht], by simp [ht]; omega, by simp [ht]⟩
          · obtain ⟨c, hc, h1, h2, h3⟩ := ih _ t ht
            exact ⟨c, by simp [hc], h1, h2, h3⟩
      · simp only [selectGo, if_neg h0, if_neg hb] at ht
        obtain ⟨c, hc, h1, h2, h3⟩ := ih _ t ht
        exact ⟨c, by simp [hc], h1, h2, h3⟩

theorem selectGo_dropLast (l : List TokenBalance) :
    ∀ r : Int, ∀ t ∈ (selectGo l r).1.dropLast, t ∈ l := by
  induction l with
  | nil => intro r t ht; simp [selectGo] at ht
  | cons b bs ih =>
    intro r t ht
    by_cases h0 : r ≤ 0
    · simp [selectGo, h0] at ht
    · by_cases hb : 0 < b.amount
      · by_cases hlt : r < b.amount
        · simp only [selectGo, if_neg h0, if_pos hb, if_pos hlt] at ht
          rw [show r - r = 0 by omega, selectGo_nonpos bs 0 le_rfl] at ht
          simp at ht
        · simp only [selectGo, if_neg h0, if_pos hb, if_neg hlt] at ht
          have hetab : { b with amount := b.amount } = b := rfl
          rw [hetab] at ht
          rcases hrest : (selectGo bs (r - b.amount)).1 with _ | ⟨x, xs⟩
          · rw [hrest] at ht; simp at ht
          · rw [hrest, List.dropLast_cons₂] at ht
            rcases List.mem_cons.mp ht with h | h
            · simp [h]
            · have := ih (r - b.amount) t (by rw [hrest]; exact h)
              simp [this]
      · simp only [selectGo, if_neg h0, if_neg hb] at ht
        have := ih r t ht
        simp [this]

theorem selectGo_pairwise (l : List TokenBalance) :
    ∀ r : Int, l.Pairwise (fun a c => c.amount ≤ a.amount) →
      ((selectGo l r).1).Pairwise (fun a c => c.amount ≤ a.amount) := by
  induction l with
  | nil => intro r _; simp [selectGo]
  | cons b bs ih =>
    intro r hp
    rw [List.pairwise_cons] at hp
    by_cases h0 : r ≤ 0
    · simp [selectGo, h0]
    · by_cases hb : 0 < b.amount
      · by_cases hlt : r < b.amount
        · simp only [selectGo, if_neg h0, if_pos hb, if_pos hlt]
          rw [show r - r = 0 by omega, selectGo_nonpos bs 0 le_rfl]
          simp
        · simp only [selectGo, if_neg h0, if_pos hb, if_neg hlt]
          rw [List.pairwise_cons]
          refine ⟨?_, ih _ hp.2⟩
          intro t ht
          obtain ⟨c, hc, _, _, h3⟩ := selectGo_mem bs _ t ht
          have := hp.1 c hc
          simp only []
          omega
      · simp only [selectGo, if_neg h0, if_neg hb]
        exact ih r hp.2

theorem insertDesc_perm (b : TokenBalance) (l : List TokenBalance) :
    List.Perm (insertDesc b l) (b :: l) := by
  induction l with
  | nil => rfl
  | cons c cs ih =>
    by_cases h : b.amount < c.amount
    · simp only [insertDesc, if_pos h]
      exact (ih.cons c).trans (List.Perm.swap b c cs)
    · simp only [insertDesc, if_neg h]
      exact List.Perm.refl _

theorem sortDesc_perm (l : List TokenBalance) : List.Perm (sortDesc l) l := by
  induction l with
  | nil => rfl
  | cons b bs ih => exact (insertDesc_perm b (sortDesc bs)).trans (ih.cons b)

theorem insertDesc_pairwise (b : TokenBalance) (l : List TokenBalance)
    (h : l.Pairwise (fun a c => c.amount ≤ a.amount)) :
    (insertDesc b l).Pairwise (fun a c => c.amount ≤ a.amount) := by
  induction l with
  | nil =>
    exact List.Pairwise.cons (fun t ht => absurd ht (List.not_mem_nil t)) List.Pairwise.nil
  | cons c cs ih =>
    rw [List.pairwise_cons] at h
    by_cases hbc : b.amount < c.amount
    · simp only [insertDesc, if_pos hbc]
      rw [List.pairwise_cons]
      refine ⟨?_, ih h.2⟩
      intro t ht
      have := (insertDesc_perm b cs).mem_iff.mp ht
      rcases List.mem_cons.mp this with rfl | hmem
      · exact le_of_lt hbc
      · exact h.1 t hmem
    · simp only [insertDesc, if_neg hbc]
      rw [List.pairwise_cons]
      constructor
      · intro t ht
        rcases List.mem_cons.mp ht with rfl | hmem
        · exact le_of_not_lt hbc
        · exact le_trans (h.1 t hmem) (le_of_not_lt hbc)
      · rw [List.pairwise_cons]
        exact h

theorem sortDesc_pairwise (l : List TokenBalance) :
    (sortDesc l).Pairwise (fun a c => c.amount ≤ a.amount) := by
  induction l with
  | nil => exact List.Pairwise.nil
  | cons b bs ih => exact insertDesc_pairwise b _ ih

theorem amtSum_sortDesc (l : List TokenBalance) : amtSum (sortDesc l) = amtSum l :=
  List.Perm.sum_eq ((sortDesc_perm l).map TokenBalance.amount)

theorem posSum_sortDesc (l : List TokenBalance) : posSum (sortDesc l) = posSum l :=
  List.Perm.sum_eq ((sortDesc_perm l).map (fun b => max b.amount 0))

/-! ### Digit-value lemmas for the parse claims -/

theorem digitsVal_shift (l : List Char) :
    ∀ init : Nat,
      l.foldl (fun n c => n * 10 + (c.toNat - 48)) init =
        init * 10 ^ l.length + digitsVal l := by
  induction l with
  | nil => intro init; simp [digitsVal]
  | cons c t ih =>
    intro init
    simp only [List.foldl_cons, List.length_cons, digitsVal]
    rw [ih (init * 10 + (c.toNat - 48))]
    have h0 : t.foldl (fun n c => n * 10 + (c.toNat - 48)) (0 * 10 + (c.toNat - 48)) =
        (c.toNat - 48) * 10 ^ t.length + digitsVal t := by
      rw [show 0 * 10 + (c.toNat - 48) = c.toNat - 48 by omega]
      have := ih (c.toNat - 48)
      simpa [digitsVal] using this
    rw [h0]
    ring

theorem digitsVal_append (a b : List Char) :
    digitsVal (a ++ b) = digitsVal a * 10 ^ b.length + digitsVal b := by
  simp only [digitsVal, List.foldl_append]
  have := digitsVal_shift b (a.foldl (fun n c => n * 10 + (c.toNat - 48)) 0)
  simpa [digitsVal] using this

theorem padTrunc6_length (l : List Char) : (padTrunc6 l).length = 6 := by
  simp [padTrunc6]

/-- C10: for every input string, `parseUsdcAmountToBaseUnits` strips all
non-digit characters from the integer and fractional parts (so a minus sign
is discarded and a negative decimal input parses to its absolute value), pads
or truncates the fractional part to exactly six digits (truncation, never
rounding up), and returns `integerPart * 10^6 + fraction`; a blank or empty
string returns 0.  The same parse converts every externally reported balance
string in the aggregation loop of `getWalletUsdcBalance`. -/
theorem c10_parse_usdc_truncating :
    (∀ s : String, parseUsdcAmountToBaseUnits s = parseUsdcSpec s) ∧
    parseUsdcAmountToBaseUnits "-1.5" = 1500000 ∧
    parseUsdcAmountToBaseUnits "0.9999999" = 999999 ∧
    parseUsdcAmountToBaseUnits "  " = 0 ∧
    parseUsdcAmountToBaseUnits "" = 0 ∧
    (∀ raws : List String, usdcTotalBaseUnits raws = (raws.map parseUsdcSpec).sum) := by
  have hmain : ∀ s : String, parseUsdcAmountToBaseUnits s = parseUsdcSpec s := by
    intro s
    simp only [parseUsdcAmountToBaseUnits, parseUsdcSpec]
    by_cases h : trimChars s.data = []
    · simp [h]
    · simp only [h, if_neg, ite_false]
      rw [digitsVal_append, padTrunc6_length]
      by_cases hi : onlyDigits ((splitOnDot (trimChars s.data)).headD []) = []
      · simp only [hi, if_pos]
        rw [show digitsVal ['0'] = 0 from rfl, show digitsVal ([] : List Char) = 0 from rfl]
        push_cast
        ring
      · simp only [hi, if_neg, ite_false]
        push_cast
        ring
  refine ⟨hmain, by rfl, by rfl, by rfl, by rfl, ?_⟩
  intro raws
  induction raws with
  | nil => rfl
  | cons r rs ih =>
    simp only [usdcTotalBaseUnits, List.foldl_cons, List.map_cons, List.sum_cons]
    rw [← hmain r]
    have hshift : ∀ (l : List String) (init : Int),
        l.foldl (fun acc raw => acc + parseUsdcAmountToBaseUnits raw) init =
          init + l.foldl (fun acc raw => acc + parseUsdcAmountToBaseUnits raw) 0 := by
      intro l
      induction l with
      | nil => intro init; simp
      | cons x xs ihx =>
        intro init
        simp only [List.foldl_cons]
        rw [ihx (init + parseUsdcAmountToBaseUnits x), ihx (0 + parseUsdcAmountToBaseUnits x)]
        ring
    rw [hshift rs (0 + parseUsdcAmountToBaseUnits r)]
    simp only [usdcTotalBaseUnits] at ih
    rw [ih]
    ring

/-- C2: when the balances sum to at least the (non-negative) required
amount, `selectTokensForTransfer` succeeds with a selection whose drawn
amounts are positive, descending, never exceed the source entry's own
balance, sum exactly to the required amount, and in which every entry but
the last is a full draw of its source balance; and on balances
`[700000, 500000]` with `required = 1000000` the selection draws
`[700000, 300000]`. -/
theorem c2_greedy_selection :
    (∀ (balances : List TokenBalance) (required : Int),
      0 ≤ required → required ≤ amtSum balances →
      ∃ sel, selectTokensForTransfer balances required = Except.ok sel ∧
        amtSum sel = required ∧
        (∀ t ∈ sel, 0 < t.amount) ∧
        (∀ t ∈ sel, ∃ b ∈ balances,
          t = { b with amount := t.amount } ∧ t.amount ≤ b.amount) ∧
        (sel.map TokenBalance.amount).Pairwise (fun x y => y ≤ x) ∧
        (∀ t ∈ sel.dropLast, t ∈ balances)) ∧
    selectTokensForTransfer [c2balanceA, c2balanceB] 1000000 =
      Except.ok [c2balanceA, { c2balanceB with amount := 300000 }] := by
  constructor
  · intro balances required hreq hsum
    have hpos : required ≤ posSum (sortDesc balances) := by
      rw [posSum_sortDesc]
      exact le_trans hsum (amtSum_le_posSum balances)
    have hrem : (selectGo (sortDesc balances) required).2 = 0 :=
      selectGo_rem_zero _ _ hreq hpos
    refine ⟨(selectGo (sortDesc balances) required).1, ?_, ?_, ?_, ?_, ?_, ?_⟩
    · simp [selectTokensForTransfer, hrem]
    · have := selectGo_sum (sortDesc balances) required
      rw [hrem] at this
      omega
    · intro t ht
      obtain ⟨b, _, _, h2, _⟩ := selectGo_mem (sortDesc balances) required t ht
      exact h2
    · intro t ht
      obtain ⟨b, hb, h1, _, h3⟩ := selectGo_mem (sortDesc balances) required t ht
      exact ⟨b, (sortDesc_perm balances).mem_iff.mp hb, h1, h3⟩
    · rw [List.pairwise_map]
      exact selectGo_pairwise (sortDesc balances) required (sortDesc_pairwise balances)
    · intro t ht
      exact (sortDesc_perm balances).mem_iff.mp
        (selectGo_dropLast (sortDesc balances) required t ht)
  · rfl

/-- C2 witness: the general statement applied to the two-wallet scenario. -/
theorem c2_greedy_selection_witness :
    ∃ sel, selectTokensForTransfer [c2balanceA, c2balanceB] 1000000 = Except.ok sel ∧
      amtSum sel = 1000000 ∧
      (∀ t ∈ sel, 0 < t.amount) ∧
      (∀ t ∈ sel, ∃ b ∈ [c2balanceA, c2balanceB],
        t = { b with amount := t.amount } ∧ t.amount ≤ b.amount) ∧
      (sel.map TokenBalance.amount).Pairwise (fun x y => y ≤ x) ∧
      (∀ t ∈ sel.dropLast, t ∈ [c2balanceA, c2balanceB]) :=
  c2_greedy_selection.1 [c2balanceA, c2balanceB] 1000000 (by decide) (by decide)

/-- C3 counterexample: on balances `[300000]` with `required = 1000000` the
raised error is `Insufficient balance. Need 1000000, have 300000`, which
names the required and available amounts but nowhere contains the shortfall
`700000` the claim says it names. -/
theorem c3_shortfall_not_named :
    selectTokensForTransfer [c3balance] 1000000 =
      Except.error "Insufficient balance. Need 1000000, have 300000" ∧
    includesSub "700000" "Insufficient balance. Need 1000000, have 300000" = false :=
  ⟨rfl, rfl⟩

/-- C3 (amended): when the balances (all non-negative) sum to strictly less
than the required amount, `selectTokensForTransfer` throws an error naming
the required amount and the total available balance (from which the
shortfall is their difference) and never returns a partial selection; on
balances `[300000]` with `required = 1000000` the error names 1000000 and
300000. -/
theorem c3_insufficient_error :
    (∀ (balances : List TokenBalance) (required : Int),
      (∀ b ∈ balances, 0 ≤ b.amount) → amtSum balances < required →
      selectTokensForTransfer balances required =
        Except.error (insufficientMsg required (amtSum balances))) ∧
    selectTokensForTransfer [c3balance] 1000000 =
      Except.error (insufficientMsg 1000000 300000) := by
  constructor
  · intro balances required hnn hlt
    have hposeq : posSum (sortDesc balances) = amtSum balances := by
      rw [posSum_sortDesc]
      exact posSum_eq_amtSum balances hnn
    have hrem : (selectGo (sortDesc balances) required).2 = required - amtSum balances := by
      rw [← hposeq]
      exact selectGo_rem_insuff (sortDesc balances) required (by omega)
    have hgt : 0 < (selectGo (sortDesc balances) required).2 := by
      rw [hrem]; omega
    simp only [selectTokensForTransfer, if_pos hgt]
    rw [hrem, show required - (required - amtSum balances) = amtSum balances from by ring]
  · rfl

/-- C3 witness: the amended statement applied to the single-wallet
scenario. -/
theorem c3_insufficient_error_witness :
    selectTokensForTransfer [c3balance] 1000000 =
      Except.error (insufficientMsg 1000000 (amtSum [c3balance])) :=
  c3_insufficient_error.1 [c3balance] 1000000 (by decide) (by decide)

/-! ### Nonce-registry lemmas -/

theorem consumeNonce_true_iff (m r n : String) (now : Int) (st : NonceStore) :
    (consumeNonce m r n now st).1 = true ↔
      ∃ e ∈ st, e.1 = buildNonceKey m r n ∧ now < e.2 := by
  simp only [consumeNonce, cleanupExpiredNonces, List.any_eq_true, List.mem_filter,
    decide_eq_true_eq, beq_iff_eq]
  constructor
  · rintro ⟨e, ⟨he, hlt⟩, hkey⟩
    exact ⟨e, he, hkey, hlt⟩
  · rintro ⟨e, he, hkey, hlt⟩
    exact ⟨e, ⟨he, hlt⟩, hkey⟩

theorem consumeNonce_deleted (m r n : String) (now now2 : Int) (st : NonceStore) :
    (consumeNonce m r n now2 (consumeNonce m r n now st).2).1 = false := by
  rw [← Bool.not_eq_true, consumeNonce_true_iff]
  rintro ⟨e, he, hkey, _⟩
  simp only [consumeNonce, cleanupExpiredNonces, List.mem_filter,
    decide_eq_true_eq] at he
  exact he.2 hkey

/-- C4: `consumeNonce` returns true iff an entry for the
(method, route, nonce) key is present and not yet expired; it deletes the
entry, so a second consume of the same key always returns false; hence after
a single issue, consuming the same nonce twice yields true then false. -/
theorem c4_nonce_single_use :
    (∀ (st : NonceStore) (m r n : String) (now : Int),
      (consumeNonce m r n now st).1 = true ↔
        ∃ e ∈ st, e.1 = buildNonceKey m r n ∧ now < e.2) ∧
    (∀ (st : NonceStore) (m r n : String) (now now2 : Int),
      (consumeNonce m r n now2 (consumeNonce m r n now st).2).1 = false) ∧
    (∀ (st : NonceStore) (m r n : String) (t ttl : Int), 0 < ttl →
      (consumeNonce m r n t (issueNonce m r n t ttl st)).1 = true ∧
      (consumeNonce m r n t (consumeNonce m r n t (issueNonce m r n t ttl st)).2).1 =
        false) := by
  refine ⟨fun st m r n now => consumeNonce_true_iff m r n now st,
    fun st m r n now now2 => consumeNonce_deleted m r n now now2 st,
    fun st m r n t ttl httl => ⟨?_, consumeNonce_deleted m r n t t _⟩⟩
  rw [consumeNonce_true_iff]
  refine ⟨(buildNonceKey m r n, t + ttl), ?_, rfl, by omega⟩
  simp [issueNonce, setNonce]

/-- C4 witness: issue once at time 0 with a 300-second timeout, consume
twice at time 0. -/
theorem c4_nonce_single_use_witness :
    (consumeNonce "get" "/api/data" "0x01" 0
      (issueNonce "get" "/api/data" "0x01" 0 300 [])).1 = true ∧
    (consumeNonce "get" "/api/data" "0x01" 0
      (consumeNonce "get" "/api/data" "0x01" 0
        (issueNonce "get" "/api/data" "0x01" 0 300 [])).2).1 = false :=
  c4_nonce_single_use.2.2 [] "get" "/api/data" "0x01" 0 300 (by decide)

/-- C1: both facilitator `verifyAuthorization` variants reject whenever
`now <= validAfter` or `now >= validBefore` (strict window on both sides, so
an authorization presented exactly at a boundary is rejected), for every
recovery oracle — hence regardless of signature validity — and for every
replay state. -/
theorem c1_validity_window_strict :
    ∀ (ecrecover : Int → Int → Nat → Option String) (pp : EIP3009PaymentPayload)
      (req : PaymentRequirements) (accountAddress : String) (alreadyUsed : Bool)
      (now : Int),
      now ≤ pp.payload.validAfter ∨ pp.payload.validBefore ≤ now →
      exceptIsOk (verifyAuthorization ecrecover pp req alreadyUsed now) = false ∧
      exceptIsOk
        (verifyAuthorizationServer ecrecover accountAddress pp req alreadyUsed now) =
        false := by
  intro ecrecover pp req accountAddress alreadyUsed now hwin
  constructor
  · simp only [verifyAuthorization, toAuthorization]
    repeat' split
    all_goals first
      | rfl
      | (exfalso; omega)
  · simp only [verifyAuthorizationServer, toAuthorization]
    repeat' split
    all_goals first
      | rfl
      | (exfalso; omega)

/-- C1 witness: a payload presented exactly at `validAfter`, with an oracle
that recovers the expected payer, is rejected by both variants. -/
theorem c1_validity_window_strict_witness :
    exceptIsOk
      (verifyAuthorization (fun _ _ _ => some "0xpayer") examplePayload
        exampleRequirements false 100) = false ∧
    exceptIsOk
      (verifyAuthorizationServer (fun _ _ _ => some "0xpayer") "0xfac" examplePayload
        exampleRequirements false 100) = false :=
  c1_validity_window_strict (fun _ _ _ => some "0xpayer") examplePayload
    exampleRequirements "0xfac" false 100 (Or.inl (by decide))

/-- C5: the signing engine rejects, before any recovery is attempted (for
every recovery oracle), a signature with `v` outside 27/28 or with a
non-canonical `s > curve_order/2`; when the pre-checks pass it returns
whatever address recovery produces, and an address differing from
`payload.from` is surfaced by the caller `verifyAuthorization` as the
signature-mismatch error rather than rejected inside the engine. -/
theorem c5_signature_prechecks_and_mismatch :
    (∀ (ecrecover : Int → Int → Nat → Option String) (sig : EIP3009Signature),
      sig.v ≠ 27 ∧ sig.v ≠ 28 →
      verifyTransferAuthorization ecrecover sig = none) ∧
    (∀ (ecrecover : Int → Int → Nat → Option String) (sig : EIP3009Signature)
      (s : Int),
      bigIntOfString sig.s = some s → secp256k1halfN < s →
      verifyTransferAuthorization ecrecover sig = none) ∧
    (∀ (ecrecover : Int → Int → Nat → Option String) (sig : EIP3009Signature)
      (r s : Int) (addr : String),
      (sig.v = 27 ∨ sig.v = 28) →
      bigIntOfString sig.r = some r → bigIntOfString sig.s = some s →
      s ≤ secp256k1halfN → ¬(r = 0 ∨ s = 0) →
      ecrecover r s sig.v = some addr →
      verifyTransferAuthorization ecrecover sig = some addr) ∧
    (∀ (ecrecover : Int → Int → Nat → Option String) (pp : EIP3009PaymentPayload)
      (req : PaymentRequirements) (alreadyUsed : Bool) (now : Int) (addr : String),
      pp.scheme = "exact" → pp.network = req.network →
      pp.payload.value = req.amount →
      toLowerStr pp.payload.toAddr = toLowerStr req.recipient →
      verifyTransferAuthorization ecrecover (toSignature pp) = some addr →
      toLowerStr addr ≠ toLowerStr pp.payload.fromAddr →
      verifyAuthorization ecrecover pp req alreadyUsed now =
        Except.error "Invalid EIP-3009 signature") := by
  refine ⟨?_, ?_, ?_, ?_⟩
  · intro ecrecover sig hv
    simp [verifyTransferAuthorization, hv]
  · intro ecrecover sig s hs hgt
    simp only [verifyTransferAuthorization]
    split
    · rfl
    · cases hr : bigIntOfString sig.r <;>
        simp [recoverAddressFromDigest, hr, hs, hgt]
  · intro ecrecover sig r s addr hv hr hs hle hrs hec
    have hvcond : ¬(sig.v ≠ 27 ∧ sig.v ≠ 28) := by
      rcases hv with h | h <;> simp [h]
    simp only [verifyTransferAuthorization, if_neg hvcond, recoverAddressFromDigest,
      hr, hs]
    rw [if_neg (not_lt.mpr hle), if_neg hrs]
    exact hec
  · intro ecrecover pp req alreadyUsed now addr hscheme hnet hval hrec hvta hne
    simp only [verifyAuthorization, toAuthorization, hvta]
    rw [if_neg (by simp [hscheme, hnet]), if_neg (by simp [hval]),
      if_neg (by simp [hrec]), if_pos hne]

/-- C5 witness: an oracle recovering an unexpected address passes the
engine's pre-checks and is surfaced by the caller as the signature-mismatch
error. -/
theorem c5_signature_prechecks_and_mismatch_witness :
    verifyAuthorization (fun _ _ _ => some "0xOTHER") examplePayload
      exampleRequirements false 200 = Except.error "Invalid EIP-3009 signature" :=
  c5_signature_prechecks_and_mismatch.2.2.2 (fun _ _ _ => some "0xOTHER")
    examplePayload exampleRequirements false 200 "0xOTHER" rfl rfl rfl rfl
    (by decide) (by decide)

/-- C8: the facilitator `/verify` route returns HTTP 400 only when the
request is malformed (requirements missing, network unsupported, or the
requirements rejected by `ensureRequirements`); for a well-formed request it
always returns HTTP 200, with `valid:false` plus an invoice exactly on a
verification failure (missing payload or any `verifyAuthorization` error)
and `valid:true` otherwise. -/
theorem c8_verify_status_codes :
    (∀ (ecrecover : Int → Int → Nat → Option String)
      (contexts : String → Option NetworkContext)
      (reqs : Option PaymentRequirements) (pl : Option EIP3009PaymentPayload)
      (used : Bool) (now : Int),
      (postVerify ecrecover contexts reqs pl used now).status = 400 →
      reqs = none ∨
        ∃ req, reqs = some req ∧
          (contexts req.network = none ∨
            ∃ ctx e, contexts req.network = some ctx ∧
              ensureRequirements req ctx (fun n => (contexts n).isSome) =
                Except.ok (some e))) ∧
    (∀ (ecrecover : Int → Int → Nat → Option String)
      (contexts : String → Option NetworkContext) (req : PaymentRequirements)
      (ctx : NetworkContext) (pl : Option EIP3009PaymentPayload)
      (used : Bool) (now : Int),
      contexts req.network = some ctx →
      ensureRequirements req ctx (fun n => (contexts n).isSome) = Except.ok none →
      (postVerify ecrecover contexts (some req) pl used now).status = 200 ∧
      ((postVerify ecrecover contexts (some req) pl used now).valid = some false →
        ((postVerify ecrecover contexts (some req) pl used now).invoice).isSome =
          true) ∧
      ((postVerify ecrecover contexts (some req) pl used now).valid = some false ↔
        (pl = none ∨ ∃ pp e, pl = some pp ∧
          verifyAuthorization ecrecover pp req used now = Except.error e))) := by
  constructor
  · intro ecrecover contexts reqs pl used now hst
    cases reqs with
    | none => exact Or.inl rfl
    | some req =>
      refine Or.inr ⟨req, rfl, ?_⟩
      cases hctx : contexts req.network with
      | none => exact Or.inl rfl
      | some ctx =>
        refine Or.inr ⟨ctx, ?_⟩
        cases hens : ensureRequirements req ctx (fun n => (contexts n).isSome) with
        | error e => simp [postVerify, hctx, hens] at hst
        | ok o =>
          cases o with
          | some e => exact ⟨e, rfl, rfl⟩
          | none =>
            cases pl with
            | none => simp [postVerify, hctx, hens] at hst
            | some pp =>
              cases hva : verifyAuthorization ecrecover pp req used now with
              | error e => simp [postVerify, hctx, hens, hva] at hst
              | ok a => simp [postVerify, hctx, hens, hva] at hst
  · intro ecrecover contexts req ctx pl used now hctx hens
    cases pl with
    | none =>
      exact ⟨by simp [postVerify, hctx, hens], by simp [postVerify, hctx, hens],
        by simp [postVerify, hctx, hens]⟩
    | some pp =>
      cases hva : verifyAuthorization ecrecover pp req used now with
      | error e =>
        refine ⟨by simp [postVerify, hctx, hens, hva],
          by simp [postVerify, hctx, hens, hva], ?_⟩
        simp only [postVerify, hctx, hens, hva]
        constructor
        · intro _
          exact Or.inr ⟨pp, e, rfl, hva⟩
        · intro _
          trivial
      | ok a =>
        refine ⟨by simp [postVerify, hctx, hens, hva], ?_, ?_⟩
        · intro h
          simp [postVerify, hctx, hens, hva] at h
        · constructor
          · intro h
            simp [postVerify, hctx, hens, hva] at h
          · rintro (h | ⟨pp2, e2, heq, hva2⟩)
            · exact Option.noConfusion h
            · have hpp : pp = pp2 := by injection heq
              rw [← hpp, hva] at hva2
              exact Except.noConfusion hva2

/-- C8 witness: a well-formed request with a missing payload gets HTTP 200,
`valid:false`, and an invoice. -/
theorem c8_verify_status_codes_witness :
    (postVerify (fun _ _ _ => some "0xpayer")
      (fun n => if n = "arc-testnet" then some exampleContext else none)
      (some exampleRequirements) none false 200).status = 200 ∧
    ((postVerify (fun _ _ _ => some "0xpayer")
      (fun n => if n = "arc-testnet" then some exampleContext else none)
      (some exampleRequirements) none false 200).valid = some false →
      ((postVerify (fun _ _ _ => some "0xpayer")
        (fun n => if n = "arc-testnet" then some exampleContext else none)
        (some exampleRequirements) none false 200).invoice).isSome = true) ∧
    ((postVerify (fun _ _ _ => some "0xpayer")
      (fun n => if n = "arc-testnet" then some exampleContext else none)
      (some exampleRequirements) none false 200).valid = some false ↔
      ((none : Option EIP3009PaymentPayload) = none ∨
        ∃ pp e, (none : Option EIP3009PaymentPayload) = some pp ∧
          verifyAuthorization (fun _ _ _ => some "0xpayer") pp exampleRequirements
            false 200 = Except.error e)) :=
  c8_verify_status_codes.2 (fun _ _ _ => some "0xpayer")
    (fun n => if n = "arc-testnet" then some exampleContext else none)
    exampleRequirements exampleContext none false 200 rfl rfl

/-- C6 counterexample: a representable payload whose `v` is 26 — outside
27/28 — decodes to null after encoding, so the round trip does not return a
payload equal to the original. -/
theorem c6_roundtrip_fails_on_bad_v :
    decodePaymentHeader (encodePaymentHeader badVPayload) = none ∧
    (none : Option EIP3009PaymentPayload) ≠ some badVPayload :=
  ⟨rfl, fun h => Option.noConfusion h⟩

/-- C6 (amended): encoding then decoding a payment header returns the
payload unchanged — all field values preserved, including address casing —
for every payload that passes signature normalization unmodified: non-zero
version, non-empty scheme/network/from/to/value/nonce, `v ∈ {27, 28}` and
non-empty `r`, `s` components present. -/
theorem c6_roundtrip_identity :
    ∀ p : EIP3009PaymentPayload,
      p.x402Version ≠ 0 → p.scheme ≠ "" → p.network ≠ "" →
      p.payload.fromAddr ≠ "" → p.payload.toAddr ≠ "" →
      p.payload.value ≠ "" → p.payload.nonce ≠ "" →
      (p.payload.v = some 27 ∨ p.payload.v = some 28) →
      (∃ rs, p.payload.r = some rs ∧ rs ≠ "") →
      (∃ ss, p.payload.s = some ss ∧ ss ≠ "") →
      decodePaymentHeader (encodePaymentHeader p) = some p := by
  intro p h1 h2 h3 h4 h5 h6 h7 hv hr hs
  obtain ⟨rs, hrs, hrne⟩ := hr
  obtain ⟨ss, hss, hsne⟩ := hs
  rcases hv with hv | hv <;>
    cases hsig : p.payload.signature with
    | none =>
      simp [decodePaymentHeader, encodePaymentHeader, normalizeSignature, hsig,
        h1, h2, h3, h4, h5, h6, h7, hv, hrs, hss, hrne, hsne]
    | some sigStr =>
      simp [decodePaymentHeader, encodePaymentHeader, normalizeSignature, hsig,
        h1, h2, h3, h4, h5, h6, h7, hv, hrs, hss, hrne, hsne]

/-- C6 witness: the round trip is the identity on the concrete well-formed
payload. -/
theorem c6_roundtrip_identity_witness :
    decodePaymentHeader (encodePaymentHeader examplePayload) = some examplePayload :=
  c6_roundtrip_identity examplePayload (by decide) (by decide) (by decide)
    (by decide) (by decide) (by decide) (by decide) (Or.inl rfl)
    ⟨"0x01", rfl, by decide⟩ ⟨"0x01", rfl, by decide⟩

/-! ### Transfer-plan lemmas -/

theorem selectTokens_ok_sum (balances : List TokenBalance) (r : Int)
    (h0 : 0 ≤ r) (hle : r ≤ amtSum balances) :
    selectTokensForTransfer balances r =
      Except.ok (selectGo (sortDesc balances) r).1 ∧
    amtSum (selectGo (sortDesc balances) r).1 = r := by
  have hpos : r ≤ posSum (sortDesc balances) := by
    rw [posSum_sortDesc]
    exact le_trans hle (amtSum_le_posSum balances)
  have hrem : (selectGo (sortDesc balances) r).2 = 0 :=
    selectGo_rem_zero _ _ h0 hpos
  constructor
  · simp [selectTokensForTransfer, hrem]
  · have := selectGo_sum (sortDesc balances) r
    rw [hrem] at this
    omega

/-- C7 counterexample: the alternative `/transfer` route, run on the amount
1000000 over balances `[700000, 500000]`, deposits only the amount (no fee
added), builds burn intents whose `value` is the selected draw — 700000 and
300000, not the user-facing 1000000 — and sets `maxFee` to
`amount + 0.5% = 1005000`, which is an amount-plus-fee value, not the fee. -/
theorem c7_alt_route_diverges :
    gatewayTransferPlanAlt 1000000 [c2balanceA, c2balanceB] =
      Except.ok
        { deposits := [700000, 300000]
          burns := [{ value := 700000, maxFee := 1005000 },
                    { value := 300000, maxFee := 1005000 }] } ∧
    (700000 : Int) ≠ 1000000 ∧
    (1005000 : Int) = 1000000 + Int.tdiv (1000000 * 5) 1000 ∧
    (1005000 : Int) ≠ Int.tdiv (1000000 * 1) 1000 :=
  ⟨rfl, by decide, by decide, by decide⟩

/-- C7 (amended): the `/transfer` route of
backend/src/middleware/validation.ts computes `fee = 0.1%` of the requested
amount, selects and deposits a total of exactly `amount + fee`, and builds
every burn intent with `value = amount` and `maxFee = fee`; the
near-duplicate alternative route instead selects and deposits `amount`
alone and burns each selected draw with `maxFee = amount + 0.5%`. -/
theorem c7_fee_policy :
    (∀ (amount : Int) (balances : List TokenBalance),
      0 ≤ amount → amount + Int.tdiv (amount * 1) 1000 ≤ amtSum balances →
      ∃ plan, gatewayTransferPlan amount balances = Except.ok plan ∧
        plan.deposits.sum = amount + Int.tdiv (amount * 1) 1000 ∧
        ∀ bp ∈ plan.burns, bp.value = amount ∧ bp.maxFee = Int.tdiv (amount * 1) 1000) ∧
    (∀ (amount : Int) (balances : List TokenBalance),
      0 ≤ amount → amount ≤ amtSum balances →
      ∃ sel, selectTokensForTransfer balances amount = Except.ok sel ∧
        gatewayTransferPlanAlt amount balances =
          Except.ok
            { deposits := sel.map TokenBalance.amount
              burns := sel.map (fun t =>
                { value := t.amount, maxFee := amount + Int.tdiv (amount * 5) 1000 }) } ∧
        amtSum sel = amount) := by
  constructor
  · intro amount balances h0 hsum
    have hfee : 0 ≤ Int.tdiv (amount * 1) 1000 := by
      apply Int.tdiv_nonneg _ (by norm_num)
      omega
    obtain ⟨hok, hsel⟩ :=
      selectTokens_ok_sum balances (amount + Int.tdiv (amount * 1) 1000) (by omega) hsum
    have hplan : gatewayTransferPlan amount balances =
        Except.ok
          { deposits :=
              (selectGo (sortDesc balances)
                (amount + Int.tdiv (amount * 1) 1000)).1.map TokenBalance.amount
            burns :=
              (selectGo (sortDesc balances)
                (amount + Int.tdiv (amount * 1) 1000)).1.map
                (fun _ => { value := amount, maxFee := Int.tdiv (amount * 1) 1000 }) } := by
      simp only [gatewayTransferPlan]
      rw [hok]
      rfl
    refine ⟨_, hplan, ?_, ?_⟩
    · simpa [amtSum] using hsel
    · intro bp hbp
      simp only [List.mem_map] at hbp
      obtain ⟨t, _, ht⟩ := hbp
      rw [← ht]
      exact ⟨rfl, rfl⟩
  · intro amount balances h0 hsum
    obtain ⟨hok, hsel⟩ := selectTokens_ok_sum balances amount h0 hsum
    refine ⟨_, hok, ?_, hsel⟩
    simp only [gatewayTransferPlanAlt]
    rw [hok]
    rfl

/-- C7 witness: the main route on amount 1000000 with balances summing to
1200000. -/
theorem c7_fee_policy_witness :
    ∃ plan, gatewayTransferPlan 1000000 [c2balanceA, c2balanceB] = Except.ok plan ∧
      plan.deposits.sum = 1000000 + Int.tdiv (1000000 * 1) 1000 ∧
      ∀ bp ∈ plan.burns, bp.value = 1000000 ∧ bp.maxFee = Int.tdiv (1000000 * 1) 1000 :=
  c7_fee_policy.1 1000000 [c2balanceA, c2balanceB] (by decide) (by decide)

/-! ### Retry-policy lemmas -/

theorem waitGo_no_failed_msg (id : String) (polls : TxPoll)
    (hnf : ∀ i r, polls i ≠ some (CircleTransactionState.FAILED, r))
    (hre : ∀ i st r, polls i = some (st, r) → r = none)
    (hd : includesStateFailed (txFailedMsg id CircleTransactionState.DENIED none) = false)
    (hc : includesStateFailed
      (txFailedMsg id CircleTransactionState.CANCELLED none) = false)
    (ht : includesStateFailed (txTimeoutMsg id) = false) :
    ∀ (fuel attempt : Nat) (e : String),
      waitGo id polls attempt fuel = Except.error e →
      includesStateFailed e = false := by
  intro fuel
  induction fuel with
  | zero =>
    intro attempt e he
    simp only [waitGo] at he
    injection he with h
    rw [← h]
    exact ht
  | succ fuel ih =>
    intro attempt e he
    cases hp : polls attempt with
    | none =>
      simp only [waitGo, hp] at he
      exact ih (attempt + 1) e he
    | some pr =>
      obtain ⟨st, r⟩ := pr
      have hrn : r = none := hre attempt st r hp
      subst hrn
      simp only [waitGo, hp] at he
      by_cases hsucc : st = CircleTransactionState.CONFIRMED ∨
          st = CircleTransactionState.COMPLETE ∨ st = CircleTransactionState.CLEARED
      · rw [if_pos hsucc] at he
        exact Except.noConfusion he
      · rw [if_neg hsucc] at he
        by_cases hfail : st = CircleTransactionState.FAILED ∨
            st = CircleTransactionState.DENIED ∨ st = CircleTransactionState.CANCELLED
        · rw [if_pos hfail] at he
          injection he with h
          rw [← h]
          rcases hfail with h1 | h1 | h1
          · exact absurd hp (by rw [h1]; exact hnf attempt none)
          · rw [h1]; exact hd
          · rw [h1]; exact hc
        · rw [if_neg hfail] at he
          exact ih (attempt + 1) e he

theorem depositRetryGo_congr (c c2 : Nat → Option String)
    (w w2 : Nat → String → Except String Unit) (m : String)
    (hc : ∀ a, a ≤ 3 → c a = c2 a) (hw : ∀ a t, a ≤ 3 → w a t = w2 a t) :
    ∀ (fuel attempt : Nat), attempt + fuel = 4 →
      depositRetryGo c w m attempt fuel = depositRetryGo c2 w2 m attempt fuel := by
  intro fuel
  induction fuel with
  | zero => intro attempt _; rfl
  | succ fuel ih =>
    intro attempt hinv
    have hle : attempt ≤ 3 := by omega
    simp only [depositRetryGo, hc attempt hle]
    cases hc2 : c2 attempt with
    | none => simp only [hc2]
    | some t =>
      simp only [hc2, hw attempt t hle]
      cases hw2 : w2 attempt t with
      | ok u => simp only [hw2]
      | error e =>
        simp only [hw2]
        by_cases hcond : ¬ includesStateFailed e = true ∨ attempt = 3
        · rw [if_pos hcond, if_pos hcond]
        · rw [if_neg hcond, if_neg hcond]
          exact ih (attempt + 1) (by omega)

/-- C9: the approve and deposit submissions of `depositToGateway` share a
retry loop bounded at 3 attempts whose behaviour depends on nothing beyond
those attempts; a first-attempt failure whose message does not carry
`state=FAILED` — in particular any `waitForTransactionConfirmed` error
caused by a DENIED or CANCELLED terminal state or by polling exhaustion —
propagates immediately without retry; a missing transaction id propagates
immediately; and a FAILED terminal state is retried, so a FAILED first
attempt followed by a confirmed second attempt succeeds. -/
theorem c9_retry_only_on_failed :
    (∀ (createTx : Nat → Option String) (waitOutcome : Nat → String → Except String Unit)
      (noTxMsg txId e : String),
      createTx 1 = some txId → waitOutcome 1 txId = Except.error e →
      includesStateFailed e = false →
      submitWithRetry createTx waitOutcome noTxMsg = Except.error e) ∧
    (∀ (createTx createTx2 : Nat → Option String)
      (waitOutcome waitOutcome2 : Nat → String → Except String Unit) (noTxMsg : String),
      (∀ a, a ≤ 3 → createTx a = createTx2 a) →
      (∀ a t, a ≤ 3 → waitOutcome a t = waitOutcome2 a t) →
      submitWithRetry createTx waitOutcome noTxMsg =
        submitWithRetry createTx2 waitOutcome2 noTxMsg) ∧
    (∀ (polls : Nat → TxPoll) (createTx : Nat → Option String) (noTxMsg txId e : String),
      (∀ i r, polls 1 i ≠ some (CircleTransactionState.FAILED, r)) →
      (∀ i st r, polls 1 i = some (st, r) → r = none) →
      includesStateFailed (txFailedMsg txId CircleTransactionState.DENIED none) = false →
      includesStateFailed (txFailedMsg txId CircleTransactionState.CANCELLED none) =
        false →
      includesStateFailed (txTimeoutMsg txId) = false →
      createTx 1 = some txId →
      waitForTransactionConfirmed txId (polls 1) = Except.error e →
      submitWithRetry createTx (fun a t => waitForTransactionConfirmed t (polls a))
        noTxMsg = Except.error e) ∧
    (∀ (createTx : Nat → Option String) (waitOutcome : Nat → String → Except String Unit)
      (noTxMsg : String),
      createTx 1 = none →
      submitWithRetry createTx waitOutcome noTxMsg = Except.error noTxMsg) ∧
    submitWithRetry (fun _ => some "tx-1")
      (fun a _ =>
        if a = 1 then
          Except.error (txFailedMsg "tx-1" CircleTransactionState.FAILED none)
        else Except.ok ())
      "Failed to create deposit transaction" = Except.ok "tx-1" := by
  have himm : ∀ (createTx : Nat → Option String)
      (waitOutcome : Nat → String → Except String Unit) (noTxMsg txId e : String),
      createTx 1 = some txId → waitOutcome 1 txId = Except.error e →
      includesStateFailed e = false →
      submitWithRetry createTx waitOutcome noTxMsg = Except.error e := by
    intro createTx waitOutcome noTxMsg txId e hcr hwo hni
    simp only [submitWithRetry, depositRetryGo, hcr, hwo, hni]
    simp
  refine ⟨himm, ?_, ?_, ?_, ?_⟩
  · intro createTx createTx2 waitOutcome waitOutcome2 noTxMsg hc hw
    exact depositRetryGo_congr createTx createTx2 waitOutcome waitOutcome2 noTxMsg
      hc hw 3 1 (by omega)
  · intro polls createTx noTxMsg txId e hnf hre hd hc ht hcr hwait
    have hni : includesStateFailed e = false :=
      waitGo_no_failed_msg txId (polls 1) hnf hre hd hc ht 80 0 e hwait
    exact himm createTx _ noTxMsg txId e hcr hwait hni
  · intro createTx waitOutcome noTxMsg hcr
    simp [submitWithRetry, depositRetryGo, hcr]
  · rfl

/-- C9 witness: a DENIED first attempt propagates immediately with the
DENIED message, with no retry. -/
theorem c9_retry_only_on_failed_witness :
    submitWithRetry (fun _ => some "tx-1")
      (fun _ _ => Except.error (txFailedMsg "tx-1" CircleTransactionState.DENIED none))
      "Failed to create approval transaction" =
      Except.error (txFailedMsg "tx-1" CircleTransactionState.DENIED none) :=
  c9_retry_only_on_failed.1 (fun _ => some "tx-1")
    (fun _ _ => Except.error (txFailedMsg "tx-1" CircleTransactionState.DENIED none))
    "Failed to create approval transaction" "tx-1"
    (txFailedMsg "tx-1" CircleTransactionState.DENIED none) rfl rfl rfl

end ArcRelay
